import Mathlib

/-!
Verification of the SSPA declarative OpenAPI pipeline.

This file shallowly embeds the core of the pipeline in Lean:

* `Val` models the Python/JSON-like values the pipeline manipulates
  (None, bool, int, str, list, dict); dicts are insertion-ordered
  association structures, as Python dicts are.
* `src/ssap/core/path/model.py` (the document model and its `to_dict`
  serialisation), `src/ssap/core/path/dsl.py` (declaration-time specs),
  `src/ssap/core/path/export.py` (operation assembly and the example
  mapping protocol), `src/ssap/core/schema/fields.py` (field
  descriptors and strict-mode validation), `src/ssap/core/schema/registry.py`
  and `src/ssap/core/path/registry.py` (registries and the scoped
  current-registry swap), `src/ssap/core/tools/split_refs.py` (target
  path computation and relative links), and
  `src/ssap/core/tools/exporter.py` (reference rewriting, the split
  maps and the written docs tree) are each translated definition by
  definition.

File-system paths are modelled as lists of path components of an
already-resolved absolute path; writing a file is modelled as an
overwriting insert into an association list from target path to the
(unserialised) document written there.
-/

namespace SSPA

/-! ## Python-like values

A mutual encoding (`Val` / `VList` / `VDict`) is used instead of a
nested `List` so that every function on values is plain structural
recursion and every closed statement about them can be settled by
`decide`.  `VDict` is an ordered association structure: Python dicts
preserve insertion order, which is observable output here. -/

mutual

inductive Val where
  | null
  | bool (b : Bool)
  | int (n : Int)
  | str (s : String)
  | list (xs : VList)
  | dict (kvs : VDict)
deriving DecidableEq

inductive VList where
  | nil
  | cons (hd : Val) (tl : VList)
deriving DecidableEq

inductive VDict where
  | nil
  | cons (k : String) (v : Val) (tl : VDict)
deriving DecidableEq

end

def VList.ofList : List Val → VList
  | [] => .nil
  | x :: xs => .cons x (VList.ofList xs)

def VList.toList : VList → List Val
  | .nil => []
  | .cons x xs => x :: xs.toList

def VDict.ofList : List (String × Val) → VDict
  | [] => .nil
  | (k, v) :: xs => .cons k v (VDict.ofList xs)

def VDict.toList : VDict → List (String × Val)
  | .nil => []
  | .cons k v xs => (k, v) :: xs.toList

/-- Build a Python list value from a Lean list. -/
def Val.arr (xs : List Val) : Val := .list (VList.ofList xs)

/-- Build a Python dict value from an ordered list of key/value pairs. -/
def Val.obj (kvs : List (String × Val)) : Val := .dict (VDict.ofList kvs)

/-- Lookup in a Python dict (`d[k]` / `k in d`): first matching key. -/
def VDict.lookup : VDict → String → Option Val
  | .nil, _ => none
  | .cons k' v tl, k => if k' = k then some v else tl.lookup k

/-- Python dict assignment `d[k] = v`: replaces the value at an existing
key in place (keeping its position), otherwise appends the new key. -/
def VDict.setKey : VDict → String → Val → VDict
  | .nil, k, v => .cons k v .nil
  | .cons k' v' tl, k, v => if k' = k then .cons k' v tl else .cons k' v' (tl.setKey k v)

/-- Python truthiness of a value (`if x:`): None, False, 0, "", [] and
the empty dict are falsy, everything else is truthy. -/
def Val.truthy : Val → Bool
  | .null => false
  | .bool b => b
  | .int n => n != 0
  | .str s => s != ""
  | .list .nil => false
  | .list (.cons _ _) => true
  | .dict .nil => false
  | .dict (.cons _ _ _) => true

/-- Truthiness of an `Optional` value. -/
def optTruthy (o : Option Val) : Bool :=
  match o with
  | none => false
  | some v => v.truthy

/-- Truthiness of an `Optional[str]` (None and "" are falsy). -/
def strOptTruthy (o : Option String) : Bool :=
  match o with
  | none => false
  | some s => s != ""

/-- Predicate `Val.isDictB v` is `isinstance(v, dict)`. -/
def Val.isDictB : Val → Bool
  | .dict _ => true
  | _ => false

/-! ## Ordered association lists with Python-dict update semantics

Used for the typed maps the pipeline builds (responses by status code,
methods by name, files by target path, ...).  `pyInsert` is Python's
`d[k] = v`: it replaces an existing key's value in place, otherwise
appends; insertion order is preserved and observable. -/

def pyLookup {κ α : Type} [DecidableEq κ] (m : List (κ × α)) (k : κ) : Option α :=
  match m with
  | [] => none
  | (k', v) :: rest => if k' = k then some v else pyLookup rest k

def pyInsert {κ α : Type} [DecidableEq κ] (m : List (κ × α)) (k : κ) (v : α) : List (κ × α) :=
  match m with
  | [] => [(k, v)]
  | (k', v') :: rest => if k' = k then (k', v) :: rest else (k', v') :: pyInsert rest k v

/-! ## The document model (`src/ssap/core/path/model.py`)

Each dataclass is translated to a structure with the same fields and
defaults; each `to_dict` is translated key for key, in the order the
Python code inserts the keys.  Python `None` defaults of `Optional[Any]`
example slots are modelled as `Val.null` (the code only tests them with
`is not None`, so the two encodings agree observably). -/

/-- Model of `SchemaRef` (model.py).  `ref`/`raw` are Optional; `to_schema`
tests `self.ref` for truthiness. -/
structure SchemaRef where
  ref : Option Val := none
  raw : Option Val := none
deriving DecidableEq

/-- Translation of `SchemaRef.to_schema`: a truthy `ref` yields a single-key ref dict,
otherwise `dict(self.raw or \x7b\x7d)`.  `raw` is always a dict (or None)
in this pipeline. -/
def SchemaRef.toSchema (s : SchemaRef) : Val :=
  match s.ref with
  | some r => if r.truthy then Val.obj [("$ref", r)] else
      match s.raw with
      | some (.dict d) => .dict d
      | _ => .dict .nil
  | none =>
    match s.raw with
    | some (.dict d) => .dict d
    | _ => .dict .nil

/-- Model of `MediaType` (model.py): schema plus optional literal example(s).
`exampleV` models field `example` (None as `Val.null`). -/
structure MediaType where
  schema : SchemaRef
  examples : Option Val := none
  exampleV : Val := .null
deriving DecidableEq

/-- Translation of `MediaType.to_dict`. -/
def MediaType.toDict (m : MediaType) : Val :=
  Val.obj ([("schema", m.schema.toSchema)]
    ++ (if m.exampleV ≠ .null then [("example", m.exampleV)] else [])
    ++ (match m.examples with | some e => [("examples", e)] | none => []))

/-- Model of `RequestBody` (model.py). -/
structure RequestBody where
  required : Bool
  description : String := ""
  content : List (String × MediaType) := []
deriving DecidableEq

/-- Translation of `RequestBody.to_dict`. -/
def RequestBody.toDict (rb : RequestBody) : Val :=
  Val.obj [("required", .bool rb.required), ("description", .str rb.description),
    ("content", Val.obj (rb.content.map (fun p => (p.1, p.2.toDict))))]

/-- Model of `Response` (model.py): description plus optional headers/content. -/
structure Response where
  description : String
  headers : Option Val := none
  content : Option (List (String × MediaType)) := none
deriving DecidableEq

/-- Truthiness of the Optional content mapping (`if self.content:`). -/
def contentTruthy (c : Option (List (String × MediaType))) : Bool :=
  match c with
  | none => false
  | some l => !l.isEmpty

/-- Translation of `Response.to_dict`: description always; headers and content only
when truthy. -/
def Response.toDict (r : Response) : Val :=
  Val.obj ([("description", .str r.description)]
    ++ (if optTruthy r.headers then [("headers", r.headers.getD .null)] else [])
    ++ (if contentTruthy r.content then
          [("content", Val.obj ((r.content.getD []).map (fun p => (p.1, p.2.toDict))))]
        else []))

/-- Model of `Parameter` (model.py). -/
structure Parameter where
  name : String
  in_ : String
  required : Bool
  schema : Val
  description : String := ""
  exampleV : Val := .null
  deprecated : Bool := false
deriving DecidableEq

/-- Translation of `Parameter.to_dict`. -/
def Parameter.toDict (p : Parameter) : Val :=
  Val.obj ([("name", .str p.name), ("in", .str p.in_), ("required", .bool p.required),
      ("schema", p.schema)]
    ++ (if p.description ≠ "" then [("description", .str p.description)] else [])
    ++ (if p.exampleV ≠ .null then [("example", p.exampleV)] else [])
    ++ (if p.deprecated then [("deprecated", .bool true)] else []))

/-- Model of `Operation` (model.py): `responses` is an insertion-ordered dict
from status-code string to `Response`. -/
structure Operation where
  summary : Option String := none
  operationId : Option String := none
  description : Option String := none
  tags : List String := []
  parameters : List Parameter := []
  requestBody : Option RequestBody := none
  responses : List (String × Response) := []
deriving DecidableEq

/-- Translation of `Operation.to_dict`: responses always come first, the optional
parts follow in the source's order. -/
def Operation.toDict (op : Operation) : Val :=
  Val.obj ([("responses", Val.obj (op.responses.map (fun p => (p.1, p.2.toDict))))]
    ++ (if strOptTruthy op.summary then [("summary", .str (op.summary.getD ""))] else [])
    ++ (if strOptTruthy op.operationId then
          [("operationId", .str (op.operationId.getD ""))] else [])
    ++ (if strOptTruthy op.description then
          [("description", .str (op.description.getD ""))] else [])
    ++ (if !op.tags.isEmpty then [("tags", Val.arr (op.tags.map .str))] else [])
    ++ (if !op.parameters.isEmpty then
          [("parameters", Val.arr (op.parameters.map Parameter.toDict))] else [])
    ++ (match op.requestBody with | some rb => [("requestBody", rb.toDict)] | none => []))

/-- Model of `PathItem` (model.py): shared parameters plus an insertion-ordered
dict from HTTP method to `Operation`. -/
structure PathItem where
  parameters : List Parameter := []
  methods : List (String × Operation) := []
deriving DecidableEq

/-- Translation of `PathItem.to_dict`: the `parameters` key only when non-empty, then
one key per method. -/
def PathItem.toDict (it : PathItem) : Val :=
  Val.obj ((if !it.parameters.isEmpty then
      [("parameters", Val.arr (it.parameters.map Parameter.toDict))] else [])
    ++ it.methods.map (fun p => (p.1, p.2.toDict)))

/-! ## Declaration-time specs (`src/ssap/core/path/dsl.py`) and classes

A Python class that may be used as a schema argument is modelled by its
identity (`id`), its `__name__` and its optional `__schema_name__`
attribute. -/

/-- Model of a Python class as seen by reference resolution. -/
structure PyClass where
  id : Nat
  name : String
  schemaName : Option String := none
deriving DecidableEq

/-- Model of `ParamSpec` (dsl.py).  `defaultV`/`exampleV` model the
`default`/`example` slots, with `Val.null` for Python `None`. -/
structure ParamSpec where
  name : String
  in_ : String
  typ : String
  fmt : Option String := none
  required : Option Bool := none
  desc : String := ""
  defaultV : Val := .null
  exampleV : Val := .null
deriving DecidableEq

/-- Values accepted as a media schema argument: a dict, a class, a
`$ref` string, or anything else (the fallback branch of
`_to_schema_ref`). -/
inductive SchemaArg where
  | dict (kvs : List (String × Val))
  | cls (c : PyClass)
  | str (s : String)
  | other (v : Val)
deriving DecidableEq

/-- Model of `MediaTypeSpec` (dsl.py). -/
structure MediaTypeSpec where
  schema : SchemaArg
  content_type : String := "application/json"
deriving DecidableEq

/-- Model of `RespSpec` (dsl.py): a status code with media entries. -/
structure RespSpec where
  status : Int
  media : List MediaTypeSpec := []
  desc : String := ""
deriving DecidableEq

/-- Model of `RequestBodySpec` (dsl.py). -/
structure RequestBodySpec where
  media : MediaTypeSpec
  required : Bool := false
  desc : String := ""
deriving DecidableEq

/-! ## Operation assembly (`src/ssap/core/path/export.py`) -/

/-- Translation of `_to_schema_ref` (export.py): a dict containing
`$ref` keeps that value as the ref, any other dict becomes raw; a class
becomes a components ref by its `__schema_name__` or `__name__`; a
string is assumed to be a ref path already; anything else falls back to
a raw object schema. -/
def toSchemaRef (a : SchemaArg) : SchemaRef :=
  match a with
  | .dict kvs =>
    match pyLookup kvs "$ref" with
    | some r => { ref := some r }
    | none => { raw := some (Val.obj kvs) }
  | .cls c => { ref := some (.str ("#/components/schemas/" ++ (c.schemaName.getD c.name))) }
  | .str s => { ref := some (.str s) }
  | .other _ => { raw := some (Val.obj [("type", .str "object")]) }

/-- Translation of `_param_to_model` (export.py). -/
def paramToModel (p : ParamSpec) : Parameter :=
  { name := p.name
    in_ := p.in_
    required := p.required.getD false
    schema := Val.obj ([("type", .str p.typ)]
      ++ (if strOptTruthy p.fmt then [("format", .str (p.fmt.getD ""))] else [])
      ++ (if p.defaultV ≠ .null then [("default", p.defaultV)] else []))
    description := p.desc
    exampleV := p.exampleV }

/-- Translation of `_request_to_model` (export.py). -/
def requestToModel (rb : Option RequestBodySpec) : Option RequestBody :=
  match rb with
  | none => none
  | some rb =>
    some { required := rb.required
           description := rb.desc
           content := [(rb.media.content_type, { schema := toSchemaRef rb.media.schema })] }

/-- Translation of `_response_to_model` (export.py): no media yields a
content-less response, otherwise one media entry per content type
(a Python dict built by assignment, hence `pyInsert`). -/
def responseToModel (r : RespSpec) : Response :=
  if r.media.isEmpty then { description := r.desc }
  else
    { description := r.desc
      content := some (r.media.foldl
        (fun acc m => pyInsert acc m.content_type { schema := toSchemaRef m.schema }) []) }

/-- One step of `_apply_examples` (export.py): how the returned list
element `v` is applied to a single response.  No content (None or the
empty dict): nothing happens.  Exactly one content type: `v` becomes
that media's literal example.  Several content types: `v` must be a
dict keyed by content type, and only matching keys are applied. -/
def applyExampleToResponse (r : Response) (v : Val) : Response :=
  match r.content with
  | none => r
  | some [] => r
  | some [(ct, m)] => { r with content := some [(ct, { m with exampleV := v })] }
  | some (c₁ :: c₂ :: cs) =>
    match v with
    | .dict kvs =>
      { r with content := some ((c₁ :: c₂ :: cs).map (fun p =>
          match kvs.lookup p.1 with
          | some ev => (p.1, { p.2 with exampleV := ev })
          | none => p)) }
    | _ => r

/-- Translation of `_apply_examples` (export.py): the returned list is
mapped positionally onto the ordered response entries; responses beyond
the list are untouched and list elements beyond the responses are
ignored. -/
def applyExamples : List (String × Response) → List Val → List (String × Response)
  | resps, [] => resps
  | [], _ => []
  | (s, r) :: resps, v :: vs => (s, applyExampleToResponse r v) :: applyExamples resps vs

/-- Outcome of `inst = cls(); ret = getattr(inst, method)()` for one
operation method: the call either raises or returns a value. -/
inductive ExampleRun where
  | raises
  | returns (v : Val)
deriving DecidableEq

/-- Model of one `@get`/`@put`/... decorated method: the metadata the
decorator stores on the function, plus the method's example run. -/
structure OpMeta where
  method : String
  summary : Option String := none
  opId : Option String := none
  descr : Option String := none
  params : List ParamSpec := []
  request : Option RequestBodySpec := none
  responses : List RespSpec := []
  run : ExampleRun := .raises
deriving DecidableEq

/-- Model of a `@path`-decorated class: the attributes the decorator
stores, whether `cls()` succeeds, its operation methods in `dir(cls)`
order, and the `__path_file_id__` / `__path_source__` attributes used
by the split engine (None when absent). -/
structure PathClass where
  pathTags : List String := []
  pathParams : List ParamSpec := []
  constructible : Bool := true
  ops : List OpMeta := []
  pathFileId : Option String := none
  pathSource : Option (List String) := none
deriving DecidableEq

/-- Translation of the per-method body of `_collect_operations_from_class`
(export.py): the `Operation` built from a method's stored metadata,
before any example is attached. -/
def buildOperation (c : PathClass) (o : OpMeta) : Operation :=
  { summary := o.summary
    operationId := o.opId
    description := o.descr
    tags := c.pathTags
    parameters := (c.pathParams ++ o.params).map paramToModel
    requestBody := requestToModel o.request
    responses := o.responses.foldl
      (fun acc rs => pyInsert acc (toString rs.status) (responseToModel rs)) [] }

/-- Result of `try: inst = cls(); ret = getattr(inst, method)() except: ret = None`
in `export_paths_dict`. -/
def opReturnValue (c : PathClass) (o : OpMeta) : Option Val :=
  if c.constructible then
    match o.run with
    | .raises => none
    | .returns v => some v
  else none

/-- The operation as attached by `export_paths_dict`: examples are
applied only when the example run produced a Python list. -/
def attachOp (c : PathClass) (o : OpMeta) : Operation :=
  let op := buildOperation c o
  match opReturnValue c o with
  | some (.list xs) => { op with responses := applyExamples op.responses xs.toList }
  | _ => op

/-- Model of a `PathRecord` (path/registry.py): the classes registered
against one URL, in registration order. -/
structure PathRecord where
  classes : List PathClass := []
deriving DecidableEq

/-- The `PathItem` built for one URL by `export_paths_dict` (export.py):
path-level parameters come from the first registered class only (and
only when non-empty); every class's operations are inserted into the
method dict in turn. -/
def buildPathItem (rec : PathRecord) : PathItem :=
  { parameters :=
      match rec.classes with
      | [] => []
      | c₀ :: _ => if c₀.pathParams.isEmpty then [] else c₀.pathParams.map paramToModel
    methods := rec.classes.foldl
      (fun acc c => c.ops.foldl (fun acc o => pyInsert acc o.method (attachOp c o)) acc) [] }

/-- Translation of `export_paths_dict` (export.py) over a path-registry
state (an insertion-ordered map from URL to record). -/
def exportPathsDict (reg : List (String × PathRecord)) : List (String × Val) :=
  reg.map (fun p => (p.1, (buildPathItem p.2).toDict))

/-! ## The schema registry (`src/ssap/core/schema/registry.py`) -/

/-- An argument to `resolve_name`: a string or a class. -/
inductive RefArg where
  | str (s : String)
  | cls (c : PyClass)
deriving DecidableEq

/-- Model of `SchemaRegistry`: component name to schema dict, plus
class (by identity) to component name. -/
structure SchemaRegistry where
  components : List (String × Val) := []
  classToName : List (Nat × String) := []
deriving DecidableEq

/-- Translation of `SchemaRegistry.resolve_name`: a string passes
through; a class uses its registered name, falling back to its
`__schema_name__` or `__name__`. -/
def SchemaRegistry.resolveName (reg : SchemaRegistry) : RefArg → String
  | .str s => s
  | .cls c =>
    match pyLookup reg.classToName c.id with
    | some n => n
    | none => c.schemaName.getD c.name

/-- Translation of `SchemaRegistry.register_class_name`:
`comp = name or cls.__name__` (Python `or`, so an empty name also falls
back), then the class-to-name map is updated. -/
def SchemaRegistry.registerClassName (reg : SchemaRegistry) (c : PyClass)
    (name : Option String) : SchemaRegistry × String :=
  let comp := match name with
    | some s => if s ≠ "" then s else c.name
    | none => c.name
  ({ reg with classToName := pyInsert reg.classToName c.id comp }, comp)

/-- Translation of `SchemaRegistry.put_component`: a plain dict
assignment, with no check of what the name was previously bound to. -/
def SchemaRegistry.putComponent (reg : SchemaRegistry) (name : String)
    (schemaDict : Val) : SchemaRegistry :=
  { reg with components := pyInsert reg.components name schemaDict }

/-! ## Scoped current-registry swap
(`use_registry` in `src/ssap/core/schema/registry.py` and
`use_path_registry` in `src/ssap/core/path/registry.py`)

Both context managers do
`token = var.set(reg); try: yield reg; finally: var.reset(token)` on a
context variable holding the current registry.  The dynamic extent of a
block of work is modelled as a small program: a step that succeeds, a
step that raises, sequencing (which stops at the first raise), a raw
`set_current_registry`, and a `use_registry` scope.  `runScoped`
threads the context variable's value and an ok flag; the scope clause
resets the variable to the recorded token on both exit paths, exactly
as the `finally` block does. -/

inductive Prog (R : Type) where
  | ret
  | throwErr
  | seq (p q : Prog R)
  | setReg (reg : R)
  | scope (reg : R) (body : Prog R)

/-- Operational semantics of a scoped program: from a current-registry
value, the final current-registry value and whether the program
completed without raising. -/
def runScoped {R : Type} : Prog R → R → R × Bool
  | .ret, s => (s, true)
  | .throwErr, s => (s, false)
  | .seq p q, s =>
    match runScoped p s with
    | (s', true) => runScoped q s'
    | (s', false) => (s', false)
  | .setReg r, _ => (r, true)
  | .scope reg body, s =>
    let token := s
    match runScoped body reg with
    | (_, ok) => (token, ok)

/-! ## Field descriptors (`src/ssap/core/schema/fields.py`) -/

/-- The allowed primitive type names (`PRIMITIVES` in fields.py). -/
def PRIMITIVES : List String :=
  ["string", "integer", "number", "boolean", "object", "array", "null"]

/-- A `type_` argument: a single string or a list of strings (unions). -/
inductive TypeArg where
  | one (s : String)
  | many (l : List String)
deriving DecidableEq

/-- Translation of `_as_type_list` (fields.py): None becomes the empty
list, a string a singleton, and an empty list raises. -/
def asTypeList : Option TypeArg → Except String (List String)
  | none => .ok []
  | some (.one s) => .ok [s]
  | some (.many l) =>
    if l.isEmpty then .error "type_ list must not be empty." else .ok l

/-- Total variant of `_as_type_list` used by `to_openapi_property`
(where the stored value has already been validated once). -/
def typeListOf : Option TypeArg → List String
  | none => []
  | some (.one s) => [s]
  | some (.many l) => l

/-- An `items` argument as stored or normalised: a dict schema, a
`Ref(name)` marker, or a raw class (classes are normalised to `$ref`
dicts inside the array branch of `FieldDescriptor.__init__`). -/
inductive ItemsArg where
  | dict (kvs : List (String × Val))
  | refv (name : String)
  | cls (c : PyClass)
deriving DecidableEq

/-- Translation of `_validate_items` (fields.py): `Ref` markers pass,
non-dicts raise, dicts must carry `type` or `$ref` and must not be
inline objects. -/
def validateItems : ItemsArg → Except String Unit
  | .refv _ => .ok ()
  | .cls _ => .error "items must be a dict or Ref(...) or a schema class."
  | .dict kvs =>
    if (pyLookup kvs "type").isNone ∧ (pyLookup kvs "$ref").isNone then
      .error "items dict must contain type or $ref."
    else if pyLookup kvs "type" = some (.str "object") then
      .error "Inline object in array items is forbidden; use Ref or a schema class."
    else .ok ()

/-- The keyword arguments of `FieldDescriptor.__init__` (fields.py),
with the same defaults.  `exampleV`/`defaultV` model `example`/`default`
(`Val.null` for Python None). -/
structure FieldArgs where
  type_ : Option TypeArg := none
  description : String := ""
  required : Bool := false
  format_ : Option String := none
  enum : Option (List Val) := none
  exampleV : Val := .null
  defaultV : Val := .null
  items : Option ItemsArg := none
  properties : Option Val := none
  required_props : Option (List String) := none
  ref : Option RefArg := none
deriving DecidableEq

/-- The `meta` dict a successfully constructed `FieldDescriptor`
stores. -/
structure FieldMeta where
  ref : Option String := none
  type_ : Option TypeArg := none
  description : String := ""
  required : Bool := false
  format_ : Option String := none
  enum : Option (List Val) := none
  exampleV : Val := .null
  defaultV : Val := .null
  items : Option ItemsArg := none
deriving DecidableEq

/-- Translation of `FieldDescriptor.__init__` (fields.py): normalise
`type_` first (this can raise), then the `ref` short-circuit with its
conflict check, then primitive validation, the object ban, the array
`items` requirement and normalisation, and the inline-object ban. -/
def initFieldDescriptor (reg : SchemaRegistry) (a : FieldArgs) : Except String FieldMeta := do
  let typeList ← asTypeList a.type_
  match a.ref with
  | some r =>
    if a.type_.isSome ∨ a.items.isSome ∨ a.properties.isSome ∨ a.required_props.isSome then
      throw "When ref is provided, do not set type_/items/properties/required_props."
    else
      pure { ref := some (reg.resolveName r)
             description := a.description
             required := a.required
             format_ := a.format_
             enum := a.enum
             exampleV := a.exampleV
             defaultV := a.defaultV }
  | none => do
    if ¬ (typeList.all (fun t => t ∈ PRIMITIVES)) then
      throw "Invalid type_ entries."
    if "object" ∈ typeList then
      throw "Object type is forbidden in strict mode; use ref instead."
    let normalizedItems ←
      if "array" ∈ typeList then
        match a.items with
        | none => throw "Array field must provide items."
        | some it => do
          let ni := match it with
            | .cls c =>
              ItemsArg.dict [("$ref", .str ("#/components/schemas/" ++ reg.resolveName (.cls c)))]
            | other => other
          let _ ← validateItems ni
          pure (some ni)
      else pure a.items
    if a.properties.isSome ∨ a.required_props.isSome then
      throw "Inline object is forbidden in strict mode."
    pure { type_ := a.type_
           description := a.description
           required := a.required
           format_ := a.format_
           enum := a.enum
           exampleV := a.exampleV
           defaultV := a.defaultV
           items := normalizedItems }

/-- Truthiness of the stored `ref` entry (`if m.get("ref"):`): None and
the empty string are falsy. -/
def refTruthy : Option String → Bool
  | none => false
  | some s => s != ""

/-- Translation of `Ref.to_openapi` (fields.py). -/
def refToOpenapi (name : String) : Val :=
  Val.obj [("$ref", .str ("#/components/schemas/" ++ name))]

/-- Translation of `FieldDescriptor.to_openapi_property` (fields.py):
a truthy stored ref short-circuits to the single-key ref dict; otherwise
type, format, description, enum, example and default are emitted when
set, and an array type additionally emits `items` (a `Ref` marker is
serialised, a stored dict is emitted verbatim).  A class in `items`
cannot reach this point from `initFieldDescriptor`; it is mapped to
`Val.null` (matching a stored Python None). -/
def toOpenapiProperty (m : FieldMeta) : Val :=
  if refTruthy m.ref then
    Val.obj [("$ref", .str ("#/components/schemas/" ++ m.ref.getD ""))]
  else
    Val.obj ((match m.type_ with
        | none => []
        | some (.one s) => [("type", Val.str s)]
        | some (.many l) => [("type", Val.arr (l.map .str))])
      ++ (if strOptTruthy m.format_ then [("format", .str (m.format_.getD ""))] else [])
      ++ (if m.description ≠ "" then [("description", .str m.description)] else [])
      ++ (match m.enum with | some l => [("enum", Val.arr l)] | none => [])
      ++ (if m.exampleV ≠ .null then [("example", m.exampleV)] else [])
      ++ (if m.defaultV ≠ .null then [("default", m.defaultV)] else [])
      ++ (if "array" ∈ typeListOf m.type_ then
            [("items", match m.items with
              | some (.refv n) => refToOpenapi n
              | some (.dict kvs) => Val.obj kvs
              | some (.cls _) => .null
              | none => .null)]
          else []))

/-- Translation of `_preview_object_schema` (fields.py) over the
ordered `__schema_fields__` list (field name, field meta): properties
in declaration order, the `required` list of required field names in
declaration order, omitted when empty. -/
def previewObjectSchema (fields : List (String × FieldMeta)) : Val :=
  let properties := fields.foldl (fun acc p => pyInsert acc p.1 (toOpenapiProperty p.2)) []
  let required := (fields.filter (fun p => p.2.required)).map (fun p => p.1)
  Val.obj ([("type", .str "object"), ("properties", Val.obj properties)]
    ++ (if required.isEmpty then [] else [("required", Val.arr (required.map .str))]))

/-! ## Target paths and relative links (`src/ssap/core/tools/split_refs.py`)

A file-system path is a list of components of an already-resolved
absolute path (`Path(...).resolve()` is the identity in this model:
the pipeline's inputs and outputs are resolved paths). -/

/-- Python `str.startswith` on our strings. -/
def strStarts (s pre : String) : Bool := List.isPrefixOf pre.toList s.toList

/-- Python `ref.split("/")[-1]`: the part after the last slash (the
whole string when it has no slash, empty when it ends with one). -/
def lastSlashComp (s : String) : String :=
  String.mk ((s.toList.reverse.takeWhile (fun c => c ≠ '/')).reverse)

/-- Joining relative-path components with forward slashes;
`os.path.relpath` never returns an empty string, it returns a dot
for the current directory. -/
def joinSlash : List String → String
  | [] => "."
  | x :: xs => xs.foldl (fun acc y => acc ++ "/" ++ y) x

/-- Python `rel.replace("\\", "/")` (components contain single
characters only, so a character map is the same function). -/
def slashNormalize (s : String) : String :=
  String.mk (s.toList.map (fun c => if c = '\\' then '/' else c))

/-- Translation of `_rel_under` (split_refs.py): the path of `fp`
relative to `base` when `fp` is given and lies under `base`, else
None. -/
def relUnder (base : List String) (fp : Option (List String)) : Option (List String) :=
  match fp with
  | none => none
  | some p => if List.isPrefixOf base p then some (p.drop base.length) else none

/-- Translation of `Path.with_name`: replace the last component. -/
def withName (p : List String) (n : String) : List String := p.dropLast ++ [n]

/-- Translation of `schema_target_path` (split_refs.py). -/
def schemaTargetPath (docsRoot : List String) (schemaSource : Option (List String))
    (fileId : String) : List String :=
  let rel := (relUnder (docsRoot ++ ["schemas"]) schemaSource).getD [fileId ++ ".yaml"]
  withName (docsRoot ++ ["schemas"] ++ rel) (fileId ++ ".yaml")

/-- Translation of `path_target_path` (split_refs.py). -/
def pathTargetPath (docsRoot : List String) (pathSource : Option (List String))
    (fileId : String) : List String :=
  let rel := (relUnder (docsRoot ++ ["paths"]) pathSource).getD [fileId ++ ".yaml"]
  withName (docsRoot ++ ["paths"] ++ rel) (fileId ++ ".yaml")

/-- Length of the common leading run of two component lists. -/
def commonLeadLen : List String → List String → Nat
  | a :: as', b :: bs' => if a = b then 1 + commonLeadLen as' bs' else 0
  | _, _ => 0

/-- Translation of `os.path.relpath(target, start)` on resolved
absolute component lists: drop the common lead, go up once per
remaining start component, then down the remaining target
components. -/
def relParts (target start : List String) : List String :=
  let k := commonLeadLen target start
  List.replicate (start.length - k) ".." ++ target.drop k

/-- Translation of `rel_ref` (split_refs.py): the relative path from
the referencing file's directory to the target file, slash-normalised,
prefixed with a dot-slash when it does not already start with a
dot. -/
def rel_ref (fromFile toFile : List String) : String :=
  let rel := slashNormalize (joinSlash (relParts toFile fromFile.dropLast))
  if strStarts rel "." then rel else "./" ++ rel

/-- The relative-link function as the specification's words describe
it (spec section 4.5: prefixed with a dot-slash when not already
relative-upward, that is, when it does not already begin with two
dots).  Used only to compare the spec's wording with `rel_ref`. -/
def relRefSpec (fromFile toFile : List String) : String :=
  let rel := slashNormalize (joinSlash (relParts toFile fromFile.dropLast))
  if strStarts rel ".." then rel else "./" ++ rel

/-! ## Reference rewriting and the split maps
(`src/ssap/core/tools/exporter.py`) -/

/-- The match test of `_walk_rewrite` (exporter.py) on a dict node:
a string-valued `$ref` entry whose value starts with the components
prefix and whose final component has a known target file.  Returns the
target. -/
def refMatch (nameToTarget : List (String × List String)) (d : VDict) :
    Option (List String) :=
  match d.lookup "$ref" with
  | some (.str s) =>
    if strStarts s "#/components/schemas/" then
      pyLookup nameToTarget (lastSlashComp s)
    else none
  | _ => none

mutual

/-- Translation of `_walk_rewrite` (exporter.py): a matching dict node
has its `$ref` value replaced by the relative link and is returned
without walking its other values; any other dict is walked value by
value, lists element by element, and scalars are returned unchanged. -/
def walkRewrite (nameToTarget : List (String × List String))
    (thisYamlPath : List String) : Val → Val
  | .dict d =>
    match refMatch nameToTarget d with
    | some target => .dict (d.setKey "$ref" (.str (rel_ref thisYamlPath target)))
    | none => .dict (walkRewriteD nameToTarget thisYamlPath d)
  | .list xs => .list (walkRewriteL nameToTarget thisYamlPath xs)
  | v => v

def walkRewriteL (nameToTarget : List (String × List String))
    (thisYamlPath : List String) : VList → VList
  | .nil => .nil
  | .cons x xs =>
    .cons (walkRewrite nameToTarget thisYamlPath x) (walkRewriteL nameToTarget thisYamlPath xs)

def walkRewriteD (nameToTarget : List (String × List String))
    (thisYamlPath : List String) : VDict → VDict
  | .nil => .nil
  | .cons k v tl =>
    .cons k (walkRewrite nameToTarget thisYamlPath v) (walkRewriteD nameToTarget thisYamlPath tl)

end

/-- Model of a schema class as the exporter sees it: its `__name__`,
the optional `__schema_name__`, `__schema_file_id__` and
`__schema_source__` attributes, and the ordered field descriptors its
body declared (captured by `__set_name__` in declaration order). -/
structure SchemaClass where
  name : String
  schemaName : Option String := none
  schemaFileId : Option String := none
  schemaSource : Option (List String) := none
  fields : List (String × FieldMeta) := []
deriving DecidableEq

/-- The component name `_ensure_registered` computes:
`getattr(cls, "__schema_name__", None) or cls.__name__`. -/
def compName (c : SchemaClass) : String :=
  match c.schemaName with
  | some s => if s ≠ "" then s else c.name
  | none => c.name

/-- Translation of `_ensure_registered` (exporter.py) restricted to
its effect on the components map: a class whose component name is
already present is skipped, otherwise `@schema` registers the preview
object schema built from its field descriptors. -/
def ensureRegistered (components : List (String × Val)) (c : SchemaClass) :
    List (String × Val) :=
  if (pyLookup components (compName c)).isSome then components
  else pyInsert components (compName c) (previewObjectSchema c.fields)

/-- The components map accumulated over a class list. -/
def registerAll (classes : List SchemaClass) : List (String × Val) :=
  classes.foldl ensureRegistered []

/-- The name-to-target map of `export_schemas_split_map` (exporter.py):
for each registered component, the first class with that component
name supplies the `__schema_file_id__` (defaulting to the component
name) and the `__schema_source__` hint. -/
def nameToTargetMap (docsRoot : List String) (classes : List SchemaClass) :
    List (String × List String) :=
  (registerAll classes).map (fun p =>
    let cls? := classes.find? (fun c => compName c = p.1)
    let fileId := match cls? with
      | some c => c.schemaFileId.getD p.1
      | none => p.1
    let src := match cls? with
      | some c => c.schemaSource
      | none => none
    (p.1, schemaTargetPath docsRoot src fileId))

/-- Translation of `export_schemas_split_map` (exporter.py): the files
map (keyed by target path, written by dict assignment, so a later
duplicate target overwrites) and the name-to-target map. -/
def exportSchemasSplitMap (docsRoot : List String) (classes : List SchemaClass) :
    List (List String × Val) × List (String × List String) :=
  let n2t := nameToTargetMap docsRoot classes
  let components := registerAll classes
  (n2t.foldl
      (fun acc p =>
        pyInsert acc p.2 (walkRewrite n2t p.2 ((pyLookup components p.1).getD .null)))
      [],
    n2t)

/-- The target file computed for one URL's record by
`export_paths_split_list` (exporter.py): None when the record has no
classes (the URL is skipped), else the first class's
`__path_file_id__` (defaulting to "path_item") and `__path_source__`
decide the target. -/
def pathRecordTarget (docsRoot : List String) (rec : PathRecord) : Option (List String) :=
  match rec.classes with
  | [] => none
  | c₀ :: _ => some (pathTargetPath docsRoot c₀.pathSource (c₀.pathFileId.getD "path_item"))

/-- Translation of `export_paths_split_list` (exporter.py). -/
def exportPathsSplitList (docsRoot : List String)
    (nameToTarget : List (String × List String))
    (reg : List (String × PathRecord)) : List (String × List String × Val) :=
  let paths := exportPathsDict reg
  reg.filterMap (fun p =>
    (pathRecordTarget docsRoot p.2).map (fun t =>
      (p.1, t, walkRewrite nameToTarget t ((pyLookup paths p.1).getD .null))))

/-- Translation of `Path.stem`: the final component without its last
suffix (a leading dot or a trailing dot is not a suffix). -/
def stemOf (fn : String) : String :=
  let r := fn.toList.reverse
  let ext := r.takeWhile (fun c => c ≠ '.')
  if ext.length = r.length then fn
  else if ext.length = 0 then fn
  else
    let rest := r.drop (ext.length + 1)
    if rest.isEmpty then fn else String.mk rest.reverse

/-- The `paths` index of `write_docs_tree` (exporter.py): each URL is
bound to a single-key ref dict linking to its path file, relative to
the index file. -/
def pathsIndexOf (indexFile : List String)
    (pathsList : List (String × List String × Val)) : List (String × Val) :=
  pathsList.foldl
    (fun acc p => pyInsert acc p.1 (Val.obj [("$ref", .str (rel_ref indexFile p.2.1))])) []

/-- The `components.schemas` index of `write_docs_tree` (exporter.py):
each schema file is bound under its stem to a single-key ref dict
linking to it, relative to the index file. -/
def componentsIndexOf (indexFile : List String)
    (schemasFiles : List (List String × Val)) : List (String × Val) :=
  schemasFiles.foldl
    (fun acc p =>
      pyInsert acc (stemOf (p.1.getLastD "")) (Val.obj [("$ref", .str (rel_ref indexFile p.1))]))
    []

/-- Translation of `write_docs_tree` (exporter.py): every schema file
is written (a later write to the same target path replaces the earlier
content), then every path file, then the index document; the result is
the final file-system map and the index document. -/
def writeDocsTree (docsRoot : List String) (openapiInfo : List (String × Val))
    (schemasFiles : List (List String × Val))
    (pathsList : List (String × List String × Val)) :
    List (List String × Val) × Val :=
  let fs₁ := schemasFiles.foldl (fun fs p => pyInsert fs p.1 p.2) []
  let fs₂ := pathsList.foldl (fun fs p => pyInsert fs p.2.1 p.2.2) fs₁
  let indexFile := docsRoot ++ ["openapi.yaml"]
  let index := Val.obj [("openapi", .str "3.0.1"), ("info", Val.obj openapiInfo),
    ("paths", Val.obj (pathsIndexOf indexFile pathsList)),
    ("components", Val.obj [("schemas", Val.obj (componentsIndexOf indexFile schemasFiles))])]
  (pyInsert fs₂ indexFile index, index)


/-! ## Concrete scenario data used by the witnesses -/

/-- Default entry for indexed access into response lists. -/
def c1Dflt : String × Response := ("", { description := "" })

/-- Scenario responses: a 200 with one content type and a 304 with no
content, in declaration order. -/
def c1Resps : List (String × Response) :=
  [("200", { description := "OK"
             content := some [("application/json",
               { schema := { ref := some (.str "#/components/schemas/Menu") } })] }),
   ("304", { description := "Not Modified" })]

/-- Scenario returned sequence: a dict for the 200, None for the 304. -/
def c1Ret : List Val := [Val.obj [("a", .int 1)], .null]

/-- Field arguments declaring an empty-string ref together with a
description. -/
def c2Args : FieldArgs := { ref := some (.str ""), description := "d" }

/-- Two declared fields, the first required. -/
def c3Fields : List (String × FieldMeta) :=
  [("name", { type_ := some (.one "string"), required := true }),
   ("note", { type_ := some (.one "string") })]

/-- Two declared fields, none required. -/
def c3FieldsNoReq : List (String × FieldMeta) :=
  [("name", { type_ := some (.one "string") }),
   ("note", { type_ := some (.one "string") })]

/-- A schema class with a source hint under the schemas root. -/
def c5Class : SchemaClass :=
  { name := "MenuItem"
    schemaName := some "MenuItem"
    schemaFileId := some "MenuItem"
    schemaSource := some ["r", "schemas", "resturant", "menu.py"]
    fields := [("name", { type_ := some (.one "string"), required := true })] }

/-- First class bound to a URL, declaring one path-level parameter. -/
def c7ClassA : PathClass :=
  { pathParams := [{ name := "id", in_ := "path", typ := "string" }] }

/-- A later class bound to the same URL, declaring a different
path-level parameter. -/
def c7ClassB : PathClass :=
  { pathParams := [{ name := "lang", in_ := "query", typ := "string" }] }

/-- A record with two classes bound to one URL. -/
def c7Rec : PathRecord := { classes := [c7ClassA, c7ClassB] }

/-- An operation whose example-producing method raises. -/
def c8Op : OpMeta :=
  { method := "get"
    summary := some "List menu"
    responses := [{ status := 200,
                    media := [{ schema := .str "#/components/schemas/Menu" }],
                    desc := "OK" }]
    run := .raises }

/-- A path class owning `c8Op`. -/
def c8Cls : PathClass := { pathTags := ["menu"], ops := [c8Op] }

/-- A path class with no file id, no source hint and no operations. -/
def c10ClsA : PathClass := {}

/-- A path class with no file id and no source hint but one
operation, so its path item differs from `c10ClsA`'s. -/
def c10ClsB : PathClass := { ops := [{ method := "get" }] }

/-- Two distinct URL templates whose records both lead to the default
target file. -/
def c10Reg : List (String × PathRecord) :=
  [("/a", { classes := [c10ClsA] }), ("/b", { classes := [c10ClsB] })]

/-! # Theorems

General lemmas about the association-list operations, then one theorem
(and, where needed, witnesses and counterexamples) per claim. -/

theorem pyLookup_pyInsert_self {κ α : Type} [DecidableEq κ] (m : List (κ × α)) (k : κ) (v : α) :
    pyLookup (pyInsert m k v) k = some v := by
  induction m with
  | nil => simp [pyInsert, pyLookup]
  | cons hd tl ih =>
    obtain ⟨k', v'⟩ := hd
    by_cases h : k' = k <;> simp [pyInsert, pyLookup, h, ih]

theorem pyLookup_pyInsert_ne {κ α : Type} [DecidableEq κ] (m : List (κ × α)) (k k' : κ) (v : α)
    (h : k' ≠ k) : pyLookup (pyInsert m k v) k' = pyLookup m k' := by
  induction m with
  | nil => simp [pyInsert, pyLookup, Ne.symm h]
  | cons hd tl ih =>
    obtain ⟨k₀, v₀⟩ := hd
    by_cases h0 : k₀ = k
    · subst h0
      have hne : ¬ k₀ = k' := fun he => h (he.symm)
      simp [pyInsert, pyLookup, hne]
    · by_cases h1 : k₀ = k'
      · subst h1
        simp [pyInsert, pyLookup, h, h0]
      · simp [pyInsert, pyLookup, h0, h1, ih]

theorem pyInsert_of_not_mem {κ α : Type} [DecidableEq κ] (m : List (κ × α)) (k : κ) (v : α)
    (h : k ∉ m.map Prod.fst) : pyInsert m k v = m ++ [(k, v)] := by
  induction m with
  | nil => simp [pyInsert]
  | cons hd tl ih =>
    obtain ⟨k', v'⟩ := hd
    simp only [List.map_cons, List.mem_cons] at h
    push_neg at h
    have hne : ¬ k' = k := fun he => h.1 (he.symm)
    simp [pyInsert, hne, ih h.2]

theorem pyLookup_isSome_iff {κ α : Type} [DecidableEq κ] (m : List (κ × α)) (k : κ) :
    (pyLookup m k).isSome = true ↔ k ∈ m.map Prod.fst := by
  induction m with
  | nil => simp [pyLookup]
  | cons hd tl ih =>
    obtain ⟨k', v'⟩ := hd
    by_cases h : k' = k
    · subst h
      simp [pyLookup]
    · have hne : ¬ k = k' := fun he => h (he.symm)
      simp [pyLookup, h, ih, hne]

theorem pyLookup_eq_none_iff {κ α : Type} [DecidableEq κ] (m : List (κ × α)) (k : κ) :
    pyLookup m k = none ↔ k ∉ m.map Prod.fst := by
  rw [← pyLookup_isSome_iff]
  cases pyLookup m k <;> simp

theorem keys_pyInsert_of_not_mem {κ α : Type} [DecidableEq κ] (m : List (κ × α)) (k : κ) (v : α)
    (h : k ∉ m.map Prod.fst) : (pyInsert m k v).map Prod.fst = m.map Prod.fst ++ [k] := by
  rw [pyInsert_of_not_mem m k v h]
  simp

/-- Filling an association list by repeated Python-dict insertion of
pairwise fresh keys simply appends the entries in order. -/
theorem foldl_pyInsert_eq_append {κ α β : Type} [DecidableEq κ]
    (key : β → κ) (val : β → α) (l : List β) (acc : List (κ × α))
    (hnd : (l.map key).Nodup)
    (hdisj : ∀ b ∈ l, key b ∉ acc.map Prod.fst) :
    l.foldl (fun a b => pyInsert a (key b) (val b)) acc
      = acc ++ l.map (fun b => (key b, val b)) := by
  induction l generalizing acc with
  | nil => simp
  | cons hd tl ih =>
    simp only [List.map_cons, List.nodup_cons] at hnd
    have h1 : key hd ∉ acc.map Prod.fst := hdisj hd (by simp)
    have step : pyInsert acc (key hd) (val hd) = acc ++ [(key hd, val hd)] :=
      pyInsert_of_not_mem acc (key hd) (val hd) h1
    simp only [List.foldl_cons, step]
    have hdisj' : ∀ b ∈ tl, key b ∉ (acc ++ [(key hd, val hd)]).map Prod.fst := by
      intro b hb
      simp only [List.map_append, List.mem_append, List.map_cons, List.map_nil,
        List.mem_singleton]
      push_neg
      refine ⟨hdisj b (by simp [hb]), ?_⟩
      intro he
      exact hnd.1 (he ▸ (List.mem_map_of_mem key hb))
    rw [ih (acc ++ [(key hd, val hd)]) hnd.2 hdisj']
    simp

theorem pyLookup_append_left {κ α : Type} [DecidableEq κ] (m₁ m₂ : List (κ × α)) (k : κ)
    (h : (pyLookup m₁ k).isSome) : pyLookup (m₁ ++ m₂) k = pyLookup m₁ k := by
  induction m₁ with
  | nil => simp [pyLookup] at h
  | cons hd tl ih =>
    obtain ⟨k', v'⟩ := hd
    by_cases he : k' = k <;> simp_all [pyLookup]

theorem pyLookup_map_of_mem {κ α β : Type} [DecidableEq κ]
    (key : β → κ) (val : β → α) (l : List β) (b : β)
    (hb : b ∈ l) (hnd : (l.map key).Nodup) :
    pyLookup (l.map fun x => (key x, val x)) (key b) = some (val b) := by
  induction l with
  | nil => simp at hb
  | cons hd tl ih =>
    simp only [List.map_cons, List.nodup_cons] at hnd
    rcases List.mem_cons.mp hb with h | h
    · subst h
      simp [pyLookup]
    · have hne : key hd ≠ key b := by
        intro he
        exact hnd.1 (he ▸ (List.mem_map_of_mem key h))
      simp [pyLookup, hne, ih h hnd.2]

/-- Values reachable in an association list built by `pyInsert` all
satisfy a predicate preserved by the inserts. -/
theorem forall_values_pyInsert {κ α : Type} [DecidableEq κ]
    (P : α → Prop) (m : List (κ × α)) (k : κ) (v : α)
    (hm : ∀ p ∈ m, P p.2) (hv : P v) : ∀ p ∈ pyInsert m k v, P p.2 := by
  induction m with
  | nil => simpa [pyInsert]
  | cons hd tl ih =>
    obtain ⟨k', v'⟩ := hd
    intro p hp
    by_cases h : k' = k
    · simp only [pyInsert, h, if_pos rfl] at hp
      rcases List.mem_cons.mp hp with h' | h'
      · subst h'; exact hv
      · exact hm p (List.mem_cons_of_mem _ h')
    · simp only [pyInsert, if_neg h] at hp
      rcases List.mem_cons.mp hp with h' | h'
      · subst h'; exact hm _ (by simp)
      · exact ih (fun q hq => hm q (List.mem_cons_of_mem _ hq)) p h'

theorem pyLookup_isSome_pyInsert_self {κ α : Type} [DecidableEq κ]
    (m : List (κ × α)) (k : κ) (v : α) : (pyLookup (pyInsert m k v) k).isSome := by
  simp [pyLookup_pyInsert_self]

theorem pyLookup_isSome_pyInsert_mono {κ α : Type} [DecidableEq κ]
    (m : List (κ × α)) (k k' : κ) (v : α) (h : (pyLookup m k').isSome) :
    (pyLookup (pyInsert m k v) k').isSome := by
  by_cases he : k' = k
  · subst he; exact pyLookup_isSome_pyInsert_self m k' v
  · rw [pyLookup_pyInsert_ne m k k' v he]; exact h

theorem pyLookup_isSome_foldl_pyInsert_mono {κ α β : Type} [DecidableEq κ]
    (key : β → κ) (val : β → α) (l : List β) (acc : List (κ × α)) (k : κ)
    (h : (pyLookup acc k).isSome) :
    (pyLookup (l.foldl (fun a b => pyInsert a (key b) (val b)) acc) k).isSome := by
  induction l generalizing acc with
  | nil => simpa
  | cons hd tl ih =>
    exact ih (pyInsert acc (key hd) (val hd))
      (pyLookup_isSome_pyInsert_mono acc (key hd) k (val hd) h)

theorem pyLookup_isSome_foldl_pyInsert_of_mem {κ α β : Type} [DecidableEq κ]
    (key : β → κ) (val : β → α) (l : List β) (acc : List (κ × α)) (b : β)
    (hb : b ∈ l) :
    (pyLookup (l.foldl (fun a x => pyInsert a (key x) (val x)) acc) (key b)).isSome := by
  induction l generalizing acc with
  | nil => simp at hb
  | cons hd tl ih =>
    rcases List.mem_cons.mp hb with h | h
    · subst h
      by_cases hmem : b ∈ tl
      · exact ih _ hmem
      · exact pyLookup_isSome_foldl_pyInsert_mono key val tl _ (key b)
          (pyLookup_isSome_pyInsert_self acc (key b) (val b))
    · exact ih _ h

theorem forall_values_foldl_pyInsert {κ α β : Type} [DecidableEq κ]
    (P : α → Prop) (key : β → κ) (val : β → α) (l : List β) (acc : List (κ × α))
    (hacc : ∀ p ∈ acc, P p.2) (hval : ∀ b ∈ l, P (val b)) :
    ∀ p ∈ l.foldl (fun a b => pyInsert a (key b) (val b)) acc, P p.2 := by
  induction l generalizing acc with
  | nil => exact hacc
  | cons hd tl ih =>
    exact ih (pyInsert acc (key hd) (val hd))
      (forall_values_pyInsert P acc (key hd) (val hd) hacc (hval hd (by simp)))
      (fun b hb => hval b (List.mem_cons_of_mem _ hb))

/-! ## Claim C9: re-registering a component name -/

/-- Claim C9 (corrected): `SchemaRegistry.put_component` performs a plain
dict assignment.  Registering a name that is already present simply binds
the name to the new schema body (last write wins) and touches nothing
else; there is no detection, no `AmbiguousComponentName`, and no error
path in the function at all. -/
theorem C9_put_component_overwrites (reg : SchemaRegistry) (name : String) (s : Val) :
    pyLookup (reg.putComponent name s).components name = some s ∧
    (reg.putComponent name s).classToName = reg.classToName ∧
    (∀ other, other ≠ name →
      pyLookup (reg.putComponent name s).components other = pyLookup reg.components other) :=
  ⟨pyLookup_pyInsert_self reg.components name s, rfl,
    fun other h => pyLookup_pyInsert_ne reg.components name other s h⟩

/-- Claim C9, counterexample to the claim as stated: registering the
name A with an object schema and then again with a different (string)
schema body is not rejected; the second body silently replaces the
first. -/
theorem C9_counterexample :
    pyLookup ((SchemaRegistry.putComponent
        (SchemaRegistry.putComponent {} "A" (Val.obj [("type", .str "object")]))
        "A" (Val.obj [("type", .str "string")])).components) "A"
      = some (Val.obj [("type", .str "string")]) ∧
    Val.obj [("type", .str "object")] ≠ Val.obj [("type", .str "string")] := by
  refine ⟨by rfl, by decide⟩

/-! ## Claim C6: stack discipline of the scoped registry swap -/

/-- Claim C6 (confirmed): entering a `use_registry` scope installs the
given registry (the body starts from it) and records the previous one;
on every exit path — the body completing or the body raising — the
previously active registry is restored; and for nested scopes the inner
scope restores to its immediate enclosing scope's registry (the
continuation after the inner scope runs with the outer registry, not
with the original outer-outer one). -/
theorem C6_use_registry_stack_discipline {R : Type} (s r₁ r₂ : R)
    (body rest : Prog R) :
    runScoped (Prog.scope r₁ body) s = (s, (runScoped body r₁).2) ∧
    ((runScoped body r₁).2 = false → runScoped (Prog.scope r₁ body) s = (s, false)) ∧
    runScoped (Prog.seq (Prog.scope r₂ body) rest) r₁
      = (if (runScoped body r₂).2 then runScoped rest r₁ else (r₁, false)) ∧
    runScoped (Prog.scope r₁ (Prog.seq (Prog.scope r₂ body) rest)) s
      = (s, if (runScoped body r₂).2 then (runScoped rest r₁).2 else false) := by
  refine ⟨?_, ?_, ?_, ?_⟩
  · simp [runScoped]
  · intro h
    simp [runScoped, h]
  · cases hb : runScoped body r₂ with
    | mk s' ok =>
      cases ok <;> simp [runScoped, hb]
  · cases hb : runScoped body r₂ with
    | mk s' ok =>
      cases ok <;> simp [runScoped, hb]

/-! ## Claim C7: path-level parameters come from the first bound type -/

/-- Claim C7 (confirmed): for a URL bound to one or more classes, the
assembled path item's parameter list is exactly the first bound class's
path-level parameters (converted, attached once, and only when that
list is non-empty); it does not depend on the later bound classes, so
their path-level parameters are never merged in. -/
theorem C7_first_class_path_params (rec : PathRecord) (c₀ : PathClass)
    (rest : List PathClass) (h : rec.classes = c₀ :: rest) :
    (buildPathItem rec).parameters
      = (if c₀.pathParams.isEmpty then [] else c₀.pathParams.map paramToModel) ∧
    (∀ rest' : List PathClass,
      (buildPathItem { classes := c₀ :: rest' }).parameters
        = (buildPathItem rec).parameters) := by
  constructor
  · simp [buildPathItem, h]
  · intro rest'
    simp [buildPathItem, h]

/-- Claim C7 witness: with two classes bound to one URL, each declaring
path-level parameters, the item carries exactly the first class's
parameter (and nothing of the second's). -/
theorem C7_first_class_path_params_witness :
    ((buildPathItem c7Rec).parameters
        = (if c7ClassA.pathParams.isEmpty then [] else c7ClassA.pathParams.map paramToModel)) ∧
    (buildPathItem c7Rec).parameters
      = [{ name := "id", in_ := "path", required := false,
           schema := Val.obj [("type", .str "string")] }] :=
  ⟨(C7_first_class_path_params c7Rec c7ClassA [c7ClassB] rfl).1, by decide⟩

/-! ## Claim C3: object schema shape, property order, required list -/

theorem foldl_pyInsert_eq_map {κ α β : Type} [DecidableEq κ]
    (key : β → κ) (val : β → α) (l : List β) (hnd : (l.map key).Nodup) :
    l.foldl (fun a b => pyInsert a (key b) (val b)) []
      = l.map (fun b => (key b, val b)) := by
  simpa using foldl_pyInsert_eq_append key val l [] hnd (by simp)

/-- Claim C3 (confirmed): for an annotated type's ordered field list
(with pairwise distinct field names, as Python class bodies produce),
the built object schema is a dict with key `type` equal to "object" and
key `properties` listing one property per field in declaration order;
the `required` key lists exactly the names of the required fields in
declaration order and is absent entirely when no field is required. -/
theorem C3_object_schema_shape (fields : List (String × FieldMeta))
    (hnd : (fields.map Prod.fst).Nodup) :
    previewObjectSchema fields
      = Val.obj ([("type", Val.str "object"),
          ("properties", Val.obj (fields.map (fun p => (p.1, toOpenapiProperty p.2))))]
        ++ (if ((fields.filter (fun p => p.2.required)).map Prod.fst).isEmpty then []
            else [("required",
              Val.arr (((fields.filter (fun p => p.2.required)).map Prod.fst).map Val.str))])) := by
  unfold previewObjectSchema
  rw [foldl_pyInsert_eq_map Prod.fst (fun p => toOpenapiProperty p.2) fields hnd]

/-- Claim C3 witness: a type with a required and an optional field
yields properties in declaration order with `required` equal to just
the first name; a type with no required field yields a schema with no
`required` key at all. -/
theorem C3_object_schema_shape_witness :
    (previewObjectSchema c3Fields
      = Val.obj ([("type", Val.str "object"),
          ("properties", Val.obj (c3Fields.map (fun p => (p.1, toOpenapiProperty p.2))))]
        ++ (if ((c3Fields.filter (fun p => p.2.required)).map Prod.fst).isEmpty then []
            else [("required",
              Val.arr (((c3Fields.filter (fun p => p.2.required)).map Prod.fst).map Val.str))]))) ∧
    previewObjectSchema c3Fields
      = Val.obj [("type", .str "object"),
          ("properties", Val.obj [("name", Val.obj [("type", .str "string")]),
                                  ("note", Val.obj [("type", .str "string")])]),
          ("required", Val.arr [.str "name"])] ∧
    previewObjectSchema c3FieldsNoReq
      = Val.obj [("type", .str "object"),
          ("properties", Val.obj [("name", Val.obj [("type", .str "string")]),
                                  ("note", Val.obj [("type", .str "string")])])] :=
  ⟨C3_object_schema_shape c3Fields (by decide), by decide, by decide⟩

/-! ## Claim C1: positional example mapping -/

theorem applyExamples_length (resps : List (String × Response)) (ret : List Val) :
    (applyExamples resps ret).length = resps.length := by
  induction resps generalizing ret with
  | nil => cases ret <;> simp [applyExamples]
  | cons hd tl ih =>
    cases ret with
    | nil => simp [applyExamples]
    | cons v vs =>
      obtain ⟨s, r⟩ := hd
      simp [applyExamples, ih]

theorem applyExamples_getD (resps : List (String × Response)) (ret : List Val)
    (i : Nat) (d : String × Response) :
    (applyExamples resps ret).getD i d
      = if i < resps.length ∧ i < ret.length
        then ((resps.getD i d).1, applyExampleToResponse (resps.getD i d).2 (ret.getD i .null))
        else resps.getD i d := by
  induction resps generalizing ret i with
  | nil => cases ret <;> simp [applyExamples]
  | cons hd tl ih =>
    cases ret with
    | nil => simp [applyExamples]
    | cons v vs =>
      obtain ⟨s, r⟩ := hd
      cases i with
      | zero => simp [applyExamples]
      | succ n =>
        simp only [applyExamples, List.getD_cons_succ, List.length_cons,
          Nat.succ_lt_succ_iff]
        exact ih vs n

theorem applyExampleToResponse_of_no_content (r : Response) (v : Val)
    (hc : r.content = none ∨ r.content = some []) : applyExampleToResponse r v = r := by
  unfold applyExampleToResponse
  rcases hc with hc | hc <;> rw [hc]

theorem applyExampleToResponse_single (r : Response) (v : Val) (ct : String) (m : MediaType)
    (hc : r.content = some [(ct, m)]) :
    applyExampleToResponse r v = { r with content := some [(ct, { m with exampleV := v })] } := by
  unfold applyExampleToResponse
  rw [hc]

theorem applyExampleToResponse_multi_nondict (r : Response) (v : Val)
    (c₁ c₂ : String × MediaType) (cs : List (String × MediaType))
    (hc : r.content = some (c₁ :: c₂ :: cs)) (hv : v.isDictB = false) :
    applyExampleToResponse r v = r := by
  unfold applyExampleToResponse
  rw [hc]
  cases v <;> try rfl
  simp [Val.isDictB] at hv

theorem applyExampleToResponse_multi_dict (r : Response) (kvs : VDict)
    (c₁ c₂ : String × MediaType) (cs : List (String × MediaType))
    (hc : r.content = some (c₁ :: c₂ :: cs)) :
    applyExampleToResponse r (.dict kvs)
      = { r with content := some ((c₁ :: c₂ :: cs).map (fun p =>
          match kvs.lookup p.1 with
          | some ev => (p.1, { p.2 with exampleV := ev })
          | none => p)) } := by
  unfold applyExampleToResponse
  rw [hc]

/-- Claim C1 (confirmed): `_apply_examples` maps a returned list onto
the operation's ordered response entries positionally.  Entry `i` keeps
its status key; entries past the end of the returned list are
untouched; returned elements past the number of responses are ignored
(the result keeps exactly one entry per response).  For the mapped
entry: a response without content is left unchanged even for a
non-None element; a response with exactly one content type takes the
element verbatim as that media's literal example; a response with
several content types takes, from a dict element, exactly the values
of keys matching declared content types (other media unchanged) and
ignores a non-dict element entirely. -/
theorem C1_example_mapping (resps : List (String × Response)) (ret : List Val)
    (i : Nat) (d : String × Response) (hi : i < resps.length) :
    (applyExamples resps ret).length = resps.length ∧
    ((applyExamples resps ret).getD i d).1 = (resps.getD i d).1 ∧
    (ret.length ≤ i → (applyExamples resps ret).getD i d = resps.getD i d) ∧
    (i < ret.length →
      ((applyExamples resps ret).getD i d
          = ((resps.getD i d).1,
             applyExampleToResponse (resps.getD i d).2 (ret.getD i .null))) ∧
      (((resps.getD i d).2.content = none ∨ (resps.getD i d).2.content = some []) →
        (applyExamples resps ret).getD i d = resps.getD i d) ∧
      (∀ ct m, (resps.getD i d).2.content = some [(ct, m)] →
        ((applyExamples resps ret).getD i d).2
          = { (resps.getD i d).2 with
              content := some [(ct, { m with exampleV := ret.getD i .null })] }) ∧
      (∀ c₁ c₂ cs, (resps.getD i d).2.content = some (c₁ :: c₂ :: cs) →
        ((ret.getD i .null).isDictB = false →
          (applyExamples resps ret).getD i d = resps.getD i d) ∧
        (∀ kvs, ret.getD i .null = .dict kvs →
          ((applyExamples resps ret).getD i d).2
            = { (resps.getD i d).2 with
                content := some ((c₁ :: c₂ :: cs).map (fun p =>
                  match kvs.lookup p.1 with
                  | some ev => (p.1, { p.2 with exampleV := ev })
                  | none => p)) }))) := by
  refine ⟨applyExamples_length resps ret, ?_, ?_, ?_⟩
  · rw [applyExamples_getD]
    by_cases hr : i < ret.length
    · simp [hi, hr]
    · simp [hr]
  · intro hle
    rw [applyExamples_getD]
    simp [Nat.not_lt.mpr hle]
  · intro hr
    have hmain : (applyExamples resps ret).getD i d
        = ((resps.getD i d).1,
           applyExampleToResponse (resps.getD i d).2 (ret.getD i .null)) := by
      rw [applyExamples_getD]
      simp [hi, hr]
    refine ⟨hmain, ?_, ?_, ?_⟩
    · intro hc
      rw [hmain, applyExampleToResponse_of_no_content _ _ hc]
    · intro ct m hc
      rw [hmain, applyExampleToResponse_single _ _ _ _ hc]
    · intro c₁ c₂ cs hc
      constructor
      · intro hnd
        rw [hmain, applyExampleToResponse_multi_nondict _ _ _ _ _ hc hnd]
      · intro kvs hkvs
        rw [hmain, hkvs, applyExampleToResponse_multi_dict _ _ _ _ _ hc]

/-- Claim C1 witness: for declared responses 200 (one content type) and
304 (no content) and returned sequence of a dict and None, the theorem
applied at indices 0 and 1 gives: the 200 media's example is the dict
verbatim, and the 304 entry is unchanged; serialising the resulting 304
response yields a dict with no content key at all. -/
theorem C1_example_mapping_witness :
    ((applyExamples c1Resps c1Ret).getD 0 c1Dflt
        = ((c1Resps.getD 0 c1Dflt).1,
           applyExampleToResponse (c1Resps.getD 0 c1Dflt).2 (c1Ret.getD 0 .null))) ∧
    ((applyExamples c1Resps c1Ret).getD 0 c1Dflt).2
      = { description := "OK"
          content := some [("application/json",
            { schema := { ref := some (.str "#/components/schemas/Menu") }
              exampleV := Val.obj [("a", .int 1)] })] } ∧
    (applyExamples c1Resps c1Ret).getD 1 c1Dflt = c1Resps.getD 1 c1Dflt ∧
    Response.toDict ((applyExamples c1Resps c1Ret).getD 1 c1Dflt).2
      = Val.obj [("description", .str "Not Modified")] := by
  refine ⟨((C1_example_mapping c1Resps c1Ret 0 c1Dflt (by decide)).2.2.2 (by decide)).1,
    by decide,
    (C1_example_mapping c1Resps c1Ret 1 c1Dflt (by decide)).2.2.2 (by decide)
      |>.2.1 (Or.inl (by decide)),
    by decide⟩

/-! ## Claim C2: ref fields emit exactly a single-key ref property -/

/-- Claim C2 (corrected, see `C2_counterexample`): whenever a field
declares `ref` and its resolved name is non-empty (every name a class
can supply is; only the literal empty string escapes), construction
succeeds with a meta whose other object keys are unset, and the emitted
property is exactly the single-key ref dict — even when description,
format, enum, example or default were also supplied.  And declaring
`ref` together with `type_`, `items`, `properties` or `required_props`
always fails with a declaration-time error. -/
theorem C2_ref_field_property :
    (∀ (reg : SchemaRegistry) (a : FieldArgs) (r : RefArg),
      a.ref = some r → a.type_ = none → a.items = none → a.properties = none →
      a.required_props = none → reg.resolveName r ≠ "" →
      initFieldDescriptor reg a = Except.ok
          { ref := some (reg.resolveName r), description := a.description,
            required := a.required, format_ := a.format_, enum := a.enum,
            exampleV := a.exampleV, defaultV := a.defaultV } ∧
      (∀ m, initFieldDescriptor reg a = Except.ok m →
        toOpenapiProperty m
          = Val.obj [("$ref", Val.str ("#/components/schemas/" ++ reg.resolveName r))])) ∧
    (∀ (reg : SchemaRegistry) (a : FieldArgs) (r : RefArg),
      a.ref = some r →
      (a.type_.isSome ∨ a.items.isSome ∨ a.properties.isSome ∨ a.required_props.isSome) →
      ∃ e, initFieldDescriptor reg a = Except.error e) := by
  constructor
  · intro reg a r href htype hitems hprops hreq hne
    have hok : initFieldDescriptor reg a = Except.ok
        { ref := some (reg.resolveName r), description := a.description,
          required := a.required, format_ := a.format_, enum := a.enum,
          exampleV := a.exampleV, defaultV := a.defaultV } := by
      unfold initFieldDescriptor
      rw [htype, href]
      simp [asTypeList, htype, hitems, hprops, hreq]
    refine ⟨hok, ?_⟩
    intro m hm
    rw [hok] at hm
    cases hm
    unfold toOpenapiProperty
    have : refTruthy (some (reg.resolveName r)) = true := by
      simp [refTruthy, hne]
    rw [this]
    simp
  · intro reg a r href hconf
    cases htl : asTypeList a.type_ with
    | error e =>
      exact ⟨e, by unfold initFieldDescriptor; rw [htl]; rfl⟩
    | ok tl =>
      refine ⟨"When ref is provided, do not set type_/items/properties/required_props.", ?_⟩
      unfold initFieldDescriptor
      rw [htl, href]
      have : (a.type_.isSome ∨ a.items.isSome ∨ a.properties.isSome
          ∨ a.required_props.isSome) := hconf
      simp [this]
      rfl

/-- Claim C2 witness: at a concrete non-empty string ref with a
description also supplied, construction succeeds and the emitted
property is exactly the single-key ref dict; and a concrete field
declaring both `ref` and `type_` is rejected. -/
theorem C2_ref_field_property_witness :
    (initFieldDescriptor {} { ref := some (.str "User"), description := "owner" }
        = Except.ok { ref := some "User", description := "owner" } ∧
      (∀ m, initFieldDescriptor {} { ref := some (.str "User"), description := "owner" }
          = Except.ok m →
        toOpenapiProperty m = Val.obj [("$ref", Val.str "#/components/schemas/User")])) ∧
    (∃ e, initFieldDescriptor {}
        { type_ := some (.one "string"), ref := some (.str "User") } = Except.error e) := by
  constructor
  · exact C2_ref_field_property.1 {} { ref := some (.str "User"), description := "owner" }
      (.str "User") rfl rfl rfl rfl rfl (by decide)
  · exact C2_ref_field_property.2 {} { type_ := some (.one "string"), ref := some (.str "User") }
      (.str "User") rfl (Or.inl (by decide))

/-- Claim C2 counterexample to the claim as stated: the empty string is
a legal `ref` argument (resolve passes strings through), but the stored
ref is then falsy, so `to_openapi_property` falls through to the
non-ref branch and emits the other supplied keys — here a property
consisting of just the description, not the single-key ref dict. -/
theorem C2_counterexample :
    initFieldDescriptor {} c2Args = Except.ok { ref := some "", description := "d" } ∧
    toOpenapiProperty { ref := some "", description := "d" }
      = Val.obj [("description", .str "d")] ∧
    Val.obj [("description", .str "d")]
      ≠ Val.obj [("$ref", .str "#/components/schemas/")] := by
  refine ⟨rfl, by decide, by decide⟩

/-! ## Claim C8: example-method failures are swallowed -/

theorem responseToModel_no_example (rs : RespSpec) (cs : List (String × MediaType))
    (hcs : (responseToModel rs).content = some cs) :
    ∀ q ∈ cs, q.2.exampleV = Val.null := by
  unfold responseToModel at hcs
  by_cases hm : rs.media.isEmpty
  · rw [if_pos hm] at hcs
    simp at hcs
  · rw [if_neg hm] at hcs
    simp only [Option.some.injEq] at hcs
    subst hcs
    exact forall_values_foldl_pyInsert (fun mt : MediaType => mt.exampleV = Val.null)
      (fun m : MediaTypeSpec => m.content_type)
      (fun m : MediaTypeSpec => ({ schema := toSchemaRef m.schema } : MediaType))
      rs.media [] (by simp) (fun b _ => rfl)

/-- Claim C8 (confirmed): when the owning class cannot be instantiated,
or when the example-producing method raises, the exception is swallowed
(`ret` becomes None) and the operation is attached exactly as built
from its declared metadata — full structure, no media example anywhere
— and document assembly still completes: the operation's method key is
present in the assembled path item. -/
theorem C8_example_failure_swallowed (c : PathClass) (o : OpMeta)
    (h : c.constructible = false ∨ o.run = ExampleRun.raises) :
    attachOp c o = buildOperation c o ∧
    (∀ p ∈ (buildOperation c o).responses, ∀ cs, p.2.content = some cs →
      ∀ q ∈ cs, q.2.exampleV = Val.null) ∧
    (o ∈ c.ops → ∀ rec : PathRecord, rec.classes = [c] →
      (pyLookup (buildPathItem rec).methods o.method).isSome = true) := by
  refine ⟨?_, ?_, ?_⟩
  · have hret : opReturnValue c o = none := by
      unfold opReturnValue
      rcases h with h | h
      · simp [h]
      · cases hc : c.constructible <;> simp [h]
    unfold attachOp
    rw [hret]
  · intro p hp cs hcs q hq
    exact forall_values_foldl_pyInsert
      (fun r : Response => ∀ cs, r.content = some cs → ∀ q ∈ cs, q.2.exampleV = Val.null)
      (fun rs : RespSpec => toString rs.status) responseToModel o.responses [] (by simp)
      (fun rs _ cs hcs => responseToModel_no_example rs cs hcs) p hp cs hcs q hq
  · intro ho rec hrec
    have hm : (buildPathItem rec).methods
        = c.ops.foldl (fun acc o => pyInsert acc o.method (attachOp c o)) [] := by
      simp [buildPathItem, hrec]
    rw [hm]
    exact pyLookup_isSome_foldl_pyInsert_of_mem OpMeta.method (attachOp c) c.ops [] o ho

/-- Claim C8 witness: a concrete operation whose example method raises
is attached as declared; the assembled path item carries the `get` key
with the declared summary, response and tag, and no example key
appears in the serialised output. -/
theorem C8_example_failure_swallowed_witness :
    attachOp c8Cls c8Op = buildOperation c8Cls c8Op ∧
    pyLookup (buildPathItem { classes := [c8Cls] }).methods "get"
      = some (buildOperation c8Cls c8Op) ∧
    exportPathsDict [("/menu", { classes := [c8Cls] })]
      = [("/menu", Val.obj [("get", Val.obj
          [("responses", Val.obj [("200", Val.obj [("description", .str "OK"),
             ("content", Val.obj [("application/json", Val.obj
               [("schema", Val.obj [("$ref", .str "#/components/schemas/Menu")])])])])]),
           ("summary", .str "List menu"),
           ("tags", Val.arr [.str "menu"])])])] :=
  ⟨(C8_example_failure_swallowed c8Cls c8Op (Or.inr rfl)).1, by decide, by decide⟩

/-! ## Claim C10: the default path-file target collides -/

/-- Claim C10 (confirmed): a URL whose first bound class has no
`__path_file_id__` attribute and no source hint usable under the paths
root gets the fixed target `<docs_root>/paths/path_item.yaml` —
independent of the URL — so distinct URLs can compute one identical
output file. -/
theorem C10_default_path_target (docsRoot : List String) (rec : PathRecord)
    (c₀ : PathClass) (rest : List PathClass) (h : rec.classes = c₀ :: rest)
    (h1 : c₀.pathFileId = none)
    (h2 : relUnder (docsRoot ++ ["paths"]) c₀.pathSource = none) :
    pathRecordTarget docsRoot rec = some (docsRoot ++ ["paths", "path_item.yaml"]) := by
  simp [pathRecordTarget, h, pathTargetPath, h1, h2, withName]

/-- Claim C10 witness: two distinct URL templates whose bound classes
carry no file id and no usable source hint compute the identical target
file; writing the docs tree leaves, for that one file, only the later
URL's (different) path item, with no error — and the index still lists
both URLs, both pointing at that same file. -/
theorem C10_default_path_target_witness :
    pathRecordTarget ["r"] { classes := [c10ClsA] }
        = some (["r"] ++ ["paths", "path_item.yaml"]) ∧
    (exportPathsSplitList ["r"] [] c10Reg).map (fun p => p.2.1)
      = [["r", "paths", "path_item.yaml"], ["r", "paths", "path_item.yaml"]] ∧
    pyLookup (writeDocsTree ["r"] [] [] (exportPathsSplitList ["r"] [] c10Reg)).1
        ["r", "paths", "path_item.yaml"]
      = some (PathItem.toDict (buildPathItem { classes := [c10ClsB] })) ∧
    PathItem.toDict (buildPathItem { classes := [c10ClsA] })
      ≠ PathItem.toDict (buildPathItem { classes := [c10ClsB] }) ∧
    pathsIndexOf (["r"] ++ ["openapi.yaml"]) (exportPathsSplitList ["r"] [] c10Reg)
      = [("/a", Val.obj [("$ref", .str "./paths/path_item.yaml")]),
         ("/b", Val.obj [("$ref", .str "./paths/path_item.yaml")])] :=
  ⟨C10_default_path_target ["r"] { classes := [c10ClsA] } c10ClsA [] rfl rfl rfl,
    by decide, by decide, by decide, by decide⟩

/-! ## Claim C4: the reference-rewrite walk -/

theorem walkRewriteL_ofList (n2t : List (String × List String)) (p : List String)
    (l : List Val) :
    walkRewriteL n2t p (VList.ofList l) = VList.ofList (l.map (walkRewrite n2t p)) := by
  induction l with
  | nil => rfl
  | cons hd tl ih => simp [VList.ofList, walkRewriteL, ih]

theorem walkRewriteD_ofList (n2t : List (String × List String)) (p : List String)
    (kvs : List (String × Val)) :
    walkRewriteD n2t p (VDict.ofList kvs)
      = VDict.ofList (kvs.map (fun q => (q.1, walkRewrite n2t p q.2))) := by
  induction kvs with
  | nil => rfl
  | cons hd tl ih =>
    obtain ⟨k, v⟩ := hd
    simp [VDict.ofList, walkRewriteD, ih]

/-- Claim C4 (corrected, see `C4_counterexample`): the rewrite walk
leaves scalars unchanged and walks lists element by element; a node
that is a single-key ref dict whose string value starts with the
components-schemas prefix and whose final component names a known
target file has its ref value replaced by the relative link
`rel_ref` computes from the referencing file's directory to the target
(slash-normalised, prefixed with dot-slash exactly when the relative
path does not already start with a dot — the amendment: the source
tests for a leading dot, not for a leading dot-dot); a ref node that
does not match (wrong prefix, or unknown name) keeps its ref value
unchanged; and a dict that does not match at all has exactly its
values walked, keys and order preserved. -/
theorem C4_ref_rewrite :
    (∀ (n2t : List (String × List String)) (p : List String),
      walkRewrite n2t p Val.null = Val.null ∧
      (∀ b, walkRewrite n2t p (Val.bool b) = Val.bool b) ∧
      (∀ n, walkRewrite n2t p (Val.int n) = Val.int n) ∧
      (∀ s, walkRewrite n2t p (Val.str s) = Val.str s)) ∧
    (∀ (n2t : List (String × List String)) (p : List String) (l : List Val),
      walkRewrite n2t p (Val.arr l) = Val.arr (l.map (walkRewrite n2t p))) ∧
    (∀ (n2t : List (String × List String)) (p : List String) (s : String)
        (target : List String),
      strStarts s "#/components/schemas/" = true →
      pyLookup n2t (lastSlashComp s) = some target →
      walkRewrite n2t p (Val.obj [("$ref", Val.str s)])
        = Val.obj [("$ref", Val.str (rel_ref p target))]) ∧
    (∀ (n2t : List (String × List String)) (p : List String) (s : String),
      (strStarts s "#/components/schemas/" = false ∨ pyLookup n2t (lastSlashComp s) = none) →
      walkRewrite n2t p (Val.obj [("$ref", Val.str s)]) = Val.obj [("$ref", Val.str s)]) ∧
    (∀ (n2t : List (String × List String)) (p : List String) (kvs : List (String × Val)),
      refMatch n2t (VDict.ofList kvs) = none →
      walkRewrite n2t p (Val.obj kvs)
        = Val.obj (kvs.map (fun q => (q.1, walkRewrite n2t p q.2)))) ∧
    (∀ (fromFile toFile : List String),
      (strStarts (slashNormalize (joinSlash (relParts toFile fromFile.dropLast))) "." = true →
        rel_ref fromFile toFile
          = slashNormalize (joinSlash (relParts toFile fromFile.dropLast))) ∧
      (strStarts (slashNormalize (joinSlash (relParts toFile fromFile.dropLast))) "." = false →
        rel_ref fromFile toFile
          = "./" ++ slashNormalize (joinSlash (relParts toFile fromFile.dropLast)))) := by
  refine ⟨?_, ?_, ?_, ?_, ?_, ?_⟩
  · exact fun n2t p => ⟨rfl, fun b => rfl, fun n => rfl, fun s => rfl⟩
  · intro n2t p l
    simp [Val.arr, walkRewrite, walkRewriteL_ofList]
  · intro n2t p s target h1 h2
    have hm : refMatch n2t (VDict.cons "$ref" (Val.str s) VDict.nil) = some target := by
      simp [refMatch, VDict.lookup, h1, h2]
    simp [Val.obj, VDict.ofList, walkRewrite, hm, VDict.setKey]
  · intro n2t p s h
    have hm : refMatch n2t (VDict.cons "$ref" (Val.str s) VDict.nil) = none := by
      rcases h with h | h <;> simp [refMatch, VDict.lookup, h]
    simp [Val.obj, VDict.ofList, walkRewrite, hm, walkRewriteD, walkRewriteD_ofList]
  · intro n2t p kvs hm
    rw [show walkRewrite n2t p (Val.obj kvs)
        = (match refMatch n2t (VDict.ofList kvs) with
          | some target =>
            Val.dict ((VDict.ofList kvs).setKey "$ref" (.str (rel_ref p target)))
          | none => Val.dict (walkRewriteD n2t p (VDict.ofList kvs))) from rfl]
    rw [hm, walkRewriteD_ofList]
    rfl
  · intro fromFile toFile
    constructor
    · intro h
      simp [rel_ref, h]
    · intro h
      simp [rel_ref, h]

/-- Claim C4 counterexample to the claim as stated: for a target file
whose name begins with a dot, the relative path already starts with a
dot without being relative-upward; the source therefore does not add
the dot-slash prefix, while the claim (prefix whenever the link does
not already begin with dot-dot) demands it.  The rewritten link begins
neither with dot-dot nor with dot-slash. -/
theorem C4_counterexample :
    walkRewrite [(".X", ["r", ".X.yaml"])] ["r", "openapi.yaml"]
        (Val.obj [("$ref", Val.str "#/components/schemas/.X")])
      = Val.obj [("$ref", Val.str ".X.yaml")] ∧
    rel_ref ["r", "openapi.yaml"] ["r", ".X.yaml"] = ".X.yaml" ∧
    relRefSpec ["r", "openapi.yaml"] ["r", ".X.yaml"] = "./.X.yaml" ∧
    strStarts ".X.yaml" ".." = false ∧
    strStarts ".X.yaml" "./" = false := by decide

/-! ## Claim C5: schema file naming and the index bindings -/

theorem nodup_keys_ensureRegistered (acc : List (String × Val)) (c : SchemaClass)
    (h : (acc.map Prod.fst).Nodup) :
    ((ensureRegistered acc c).map Prod.fst).Nodup := by
  unfold ensureRegistered
  by_cases hp : (pyLookup acc (compName c)).isSome
  · simp [hp, h]
  · have hmem : compName c ∉ acc.map Prod.fst := by
      rw [← pyLookup_isSome_iff]
      simpa using hp
    simp only [hp, Bool.false_eq_true, if_neg, ite_false]
    rw [pyInsert_of_not_mem _ _ _ hmem]
    simp [List.nodup_append, h, hmem]

theorem nodup_keys_foldl_ensureRegistered (classes : List SchemaClass)
    (acc : List (String × Val)) (h : (acc.map Prod.fst).Nodup) :
    (((classes.foldl ensureRegistered acc)).map Prod.fst).Nodup := by
  induction classes generalizing acc with
  | nil => simpa
  | cons c cls ih => exact ih _ (nodup_keys_ensureRegistered acc c h)

theorem nodup_keys_registerAll (classes : List SchemaClass) :
    ((registerAll classes).map Prod.fst).Nodup :=
  nodup_keys_foldl_ensureRegistered classes [] (by simp)

theorem keys_foldl_ensureRegistered (classes : List SchemaClass)
    (acc : List (String × Val)) :
    ∀ k ∈ (classes.foldl ensureRegistered acc).map Prod.fst,
      k ∈ acc.map Prod.fst ∨ ∃ c ∈ classes, compName c = k := by
  induction classes generalizing acc with
  | nil =>
    intro k hk
    exact Or.inl hk
  | cons c cls ih =>
    intro k hk
    rcases ih (ensureRegistered acc c) k hk with h | h
    · unfold ensureRegistered at h
      by_cases hp : (pyLookup acc (compName c)).isSome
      · simp only [hp, if_pos] at h
        exact Or.inl h
      · simp only [hp, Bool.false_eq_true, if_neg, ite_false] at h
        have hmem : compName c ∉ acc.map Prod.fst := by
          rw [← pyLookup_isSome_iff]
          simpa using hp
        rw [pyInsert_of_not_mem _ _ _ hmem] at h
        simp only [List.map_append, List.mem_append, List.map_cons, List.map_nil,
          List.mem_singleton] at h
        rcases h with h | h
        · exact Or.inl h
        · exact Or.inr ⟨c, by simp, h.symm⟩
    · obtain ⟨c', hc', he⟩ := h
      exact Or.inr ⟨c', List.mem_cons_of_mem _ hc', he⟩

theorem keys_registerAll_are_compNames (classes : List SchemaClass) :
    ∀ k ∈ (registerAll classes).map Prod.fst, ∃ c ∈ classes, compName c = k := by
  intro k hk
  rcases keys_foldl_ensureRegistered classes [] k hk with h | h
  · simp at h
  · exact h

theorem string_append_right_cancel (a b t : String) (h : a ++ t = b ++ t) : a = b := by
  have hd : a.data ++ t.data = b.data ++ t.data := by
    have := congrArg String.data h
    simpa using this
  exact String.ext (List.append_cancel_right hd)

theorem stemOf_append_yaml (name : String) (h : name ≠ "") :
    stemOf (name ++ ".yaml") = name := by
  have hdata : name.data ≠ [] := fun hx => h (String.ext hx)
  have hchars : (name ++ ".yaml").toList = name.data ++ ['.', 'y', 'a', 'm', 'l'] := by
    simp [String.toList]
  have hrev : (name ++ ".yaml").toList.reverse
      = 'l' :: 'm' :: 'a' :: 'y' :: '.' :: name.data.reverse := by
    rw [hchars]
    simp
  have htake : List.takeWhile (fun c => decide (c ≠ '.'))
      ('l' :: 'm' :: 'a' :: 'y' :: '.' :: name.data.reverse) = ['l', 'm', 'a', 'y'] := by
    simp [List.takeWhile]
  have hlen : ('l' :: 'm' :: 'a' :: 'y' :: '.' :: name.data.reverse).length
      = name.data.length + 5 := by
    simp
  have hdrop : ('l' :: 'm' :: 'a' :: 'y' :: '.' :: name.data.reverse).drop 5
      = name.data.reverse := rfl
  have hrevne : name.data.reverse.isEmpty = false := by
    cases hx : name.data.reverse with
    | nil => exact absurd (by simpa using hx) hdata
    | cons a l => rfl
  simp only [stemOf]
  rw [hrev, htake, hlen]
  rw [if_neg (by simp only [List.length_cons, List.length_nil]; omega :
    ¬ ((['l', 'm', 'a', 'y'] : List Char).length = name.data.length + 5))]
  rw [if_neg (by simp : ¬ ((['l', 'm', 'a', 'y'] : List Char).length = 0))]
  rw [show (['l', 'm', 'a', 'y'] : List Char).length + 1 = 5 from rfl, hdrop]
  rw [if_neg (by simp [hrevne])]
  exact String.ext (by simp)

theorem nameToTargetMap_entry (docsRoot : List String) (classes : List SchemaClass)
    (hid : ∀ c ∈ classes, c.schemaFileId = none ∨ c.schemaFileId = some (compName c)) :
    ∀ name target, (name, target) ∈ nameToTargetMap docsRoot classes →
      (∃ c ∈ classes, compName c = name) ∧
      target = schemaTargetPath docsRoot
          ((classes.find? (fun c => compName c = name)).bind SchemaClass.schemaSource) name ∧
      target.getLast? = some (name ++ ".yaml") := by
  intro name target hm
  unfold nameToTargetMap at hm
  obtain ⟨p, hp, he⟩ := List.mem_map.mp hm
  have hname : p.1 = name := congrArg Prod.fst he
  have hkey : name ∈ (registerAll classes).map Prod.fst := by
    rw [← hname]
    exact List.mem_map_of_mem Prod.fst hp
  have hex : ∃ c ∈ classes, compName c = name := keys_registerAll_are_compNames classes name hkey
  obtain ⟨c', hc'mem, hc'name⟩ := hex
  have hfindSome : (classes.find? (fun c => compName c = name)).isSome := by
    rw [List.find?_isSome]
    exact ⟨c', hc'mem, by simp [hc'name]⟩
  obtain ⟨c₀, hfind⟩ := Option.isSome_iff_exists.mp hfindSome
  have hc₀mem : c₀ ∈ classes := List.mem_of_find?_eq_some hfind
  have hc₀name : compName c₀ = name := by
    have := List.find?_some hfind
    simpa using this
  have hfileId : c₀.schemaFileId.getD name = name := by
    rcases hid c₀ hc₀mem with hno | hyes
    · rw [hno]; rfl
    · rw [hyes, hc₀name]; rfl
  have htarget : target = schemaTargetPath docsRoot
      ((classes.find? (fun c => compName c = name)).bind SchemaClass.schemaSource) name := by
    have he2 : target = (fun p : String × Val =>
        let cls? := classes.find? (fun c => compName c = p.1)
        let fileId := match cls? with
          | some c => c.schemaFileId.getD p.1
          | none => p.1
        let src := match cls? with
          | some c => c.schemaSource
          | none => none
        schemaTargetPath docsRoot src fileId) p := (congrArg Prod.snd he).symm
    rw [he2]
    simp only [hname, hfind, hfileId, Option.bind]
  refine ⟨⟨c', hc'mem, hc'name⟩, htarget, ?_⟩
  rw [htarget]
  unfold schemaTargetPath withName
  exact List.getLast?_concat _

theorem nameToTargetMap_keys (docsRoot : List String) (classes : List SchemaClass) :
    (nameToTargetMap docsRoot classes).map Prod.fst = (registerAll classes).map Prod.fst := by
  unfold nameToTargetMap
  rw [List.map_map]
  rfl

theorem nameToTargetMap_names_nodup (docsRoot : List String) (classes : List SchemaClass) :
    ((nameToTargetMap docsRoot classes).map Prod.fst).Nodup := by
  rw [nameToTargetMap_keys]
  exact nodup_keys_registerAll classes

theorem nameToTargetMap_targets_nodup (docsRoot : List String) (classes : List SchemaClass)
    (hid : ∀ c ∈ classes, c.schemaFileId = none ∨ c.schemaFileId = some (compName c)) :
    ((nameToTargetMap docsRoot classes).map (fun p => p.2)).Nodup := by
  have hnd := nameToTargetMap_names_nodup docsRoot classes
  have hpairs : (nameToTargetMap docsRoot classes).Nodup := hnd.of_map
  refine List.Nodup.map_on ?_ hpairs
  intro p hp q hq he
  have ep := (nameToTargetMap_entry docsRoot classes hid p.1 p.2 (by simpa using hp)).2.2
  have eq' := (nameToTargetMap_entry docsRoot classes hid q.1 q.2 (by simpa using hq)).2.2
  rw [he] at ep
  rw [eq'] at ep
  have hyaml : q.1 ++ ".yaml" = p.1 ++ ".yaml" := by
    simpa using ep
  have hfst : q.1 = p.1 := string_append_right_cancel _ _ _ hyaml
  exact List.inj_on_of_nodup_map hnd hp hq hfst.symm

theorem exportSchemasSplitMap_files (docsRoot : List String) (classes : List SchemaClass)
    (hid : ∀ c ∈ classes, c.schemaFileId = none ∨ c.schemaFileId = some (compName c)) :
    (exportSchemasSplitMap docsRoot classes).1
      = (nameToTargetMap docsRoot classes).map (fun p =>
          (p.2, walkRewrite (nameToTargetMap docsRoot classes) p.2
            ((pyLookup (registerAll classes) p.1).getD .null))) := by
  unfold exportSchemasSplitMap
  exact foldl_pyInsert_eq_map (fun p : String × List String => p.2)
    (fun p => walkRewrite (nameToTargetMap docsRoot classes) p.2
      ((pyLookup (registerAll classes) p.1).getD .null))
    (nameToTargetMap docsRoot classes)
    (nameToTargetMap_targets_nodup docsRoot classes hid)

/-- Claim C5 (confirmed): every component's target file is derived from
the first class carrying its component name: the file name is exactly
`<componentName>.yaml` (the `__schema_file_id__` hint, when present, is
the component name), placed at the source hint's relative location
under the schemas root when that hint is usable and non-degenerate,
else at `<docs_root>/schemas/<componentName>.yaml`; and the index
document's `components.schemas` map binds that same component name to
a single-key ref dict holding the relative link from the index file to
that target file. -/
theorem C5_schema_split_and_index (docsRoot : List String) (classes : List SchemaClass)
    (info : List (String × Val)) (pathsList : List (String × List String × Val))
    (hid : ∀ c ∈ classes, c.schemaFileId = none ∨ c.schemaFileId = some (compName c))
    (hne : ∀ c ∈ classes, compName c ≠ "")
    (name : String) (target : List String)
    (hment : (name, target) ∈ (exportSchemasSplitMap docsRoot classes).2) :
    target = schemaTargetPath docsRoot
        ((classes.find? (fun c => compName c = name)).bind SchemaClass.schemaSource) name ∧
    target.getLast? = some (name ++ ".yaml") ∧
    (∀ rel, relUnder (docsRoot ++ ["schemas"])
          ((classes.find? (fun c => compName c = name)).bind SchemaClass.schemaSource)
        = some rel → rel ≠ [] →
      target = docsRoot ++ ["schemas"] ++ rel.dropLast ++ [name ++ ".yaml"]) ∧
    (relUnder (docsRoot ++ ["schemas"])
          ((classes.find? (fun c => compName c = name)).bind SchemaClass.schemaSource)
        = none →
      target = docsRoot ++ ["schemas", name ++ ".yaml"]) ∧
    pyLookup (componentsIndexOf (docsRoot ++ ["openapi.yaml"])
        (exportSchemasSplitMap docsRoot classes).1) name
      = some (Val.obj [("$ref",
          Val.str (rel_ref (docsRoot ++ ["openapi.yaml"]) target))]) ∧
    (writeDocsTree docsRoot info (exportSchemasSplitMap docsRoot classes).1 pathsList).2
      = Val.obj [("openapi", .str "3.0.1"), ("info", Val.obj info),
          ("paths", Val.obj (pathsIndexOf (docsRoot ++ ["openapi.yaml"]) pathsList)),
          ("components", Val.obj [("schemas",
            Val.obj (componentsIndexOf (docsRoot ++ ["openapi.yaml"])
              (exportSchemasSplitMap docsRoot classes).1))])] := by
  have hm : (name, target) ∈ nameToTargetMap docsRoot classes := hment
  obtain ⟨⟨cw, hcwmem, hcwname⟩, htarget, hlast⟩ :=
    nameToTargetMap_entry docsRoot classes hid name target hm
  have hnamene : name ≠ "" := hcwname ▸ hne cw hcwmem
  refine ⟨htarget, hlast, ?_, ?_, ?_, rfl⟩
  · intro rel hrel hrelne
    rw [htarget]
    unfold schemaTargetPath withName
    rw [hrel]
    simp [hrelne, List.dropLast_cons_of_ne_nil]
  · intro hrel
    rw [htarget]
    unfold schemaTargetPath withName
    rw [hrel]
    simp
  · have hfiles := exportSchemasSplitMap_files docsRoot classes hid
    rw [hfiles]
    set n2t := nameToTargetMap docsRoot classes with hn2t
    have hstem : ∀ p ∈ n2t, stemOf (p.2.getLastD "") = p.1 := by
      intro p hp
      obtain ⟨⟨c', hc'mem, hc'name⟩, _, hpl⟩ :=
        nameToTargetMap_entry docsRoot classes hid p.1 p.2 (by simpa using hp)
      have : p.2.getLastD "" = p.1 ++ ".yaml" := by
        rw [List.getLastD_eq_getLast?, hpl]
        rfl
      rw [this]
      exact stemOf_append_yaml p.1 (hc'name ▸ hne c' hc'mem)
    have hidx : componentsIndexOf (docsRoot ++ ["openapi.yaml"])
        (n2t.map (fun p =>
          (p.2, walkRewrite n2t p.2 ((pyLookup (registerAll classes) p.1).getD .null))))
        = n2t.map (fun p => (stemOf (p.2.getLastD ""),
            Val.obj [("$ref", Val.str (rel_ref (docsRoot ++ ["openapi.yaml"]) p.2))])) := by
      unfold componentsIndexOf
      rw [List.foldl_map]
      have hkeysnd : (n2t.map (fun p : String × List String => stemOf (p.2.getLastD ""))).Nodup := by
        have : n2t.map (fun p : String × List String => stemOf (p.2.getLastD ""))
            = n2t.map Prod.fst := List.map_congr_left hstem
        rw [this]
        exact nameToTargetMap_names_nodup docsRoot classes
      exact foldl_pyInsert_eq_map
        (fun p : String × List String => stemOf (p.2.getLastD ""))
        (fun p => Val.obj [("$ref", Val.str (rel_ref (docsRoot ++ ["openapi.yaml"]) p.2))])
        n2t hkeysnd
    rw [hidx]
    have hb : (name, target) ∈ n2t := hm
    have hkeysnd : (n2t.map (fun p : String × List String => stemOf (p.2.getLastD ""))).Nodup := by
      have : n2t.map (fun p : String × List String => stemOf (p.2.getLastD ""))
          = n2t.map Prod.fst := List.map_congr_left hstem
      rw [this]
      exact nameToTargetMap_names_nodup docsRoot classes
    have hlook := pyLookup_map_of_mem
      (fun p : String × List String => stemOf (p.2.getLastD ""))
      (fun p => Val.obj [("$ref", Val.str (rel_ref (docsRoot ++ ["openapi.yaml"]) p.2))])
      n2t (name, target) hb hkeysnd
    have hkey : stemOf (target.getLastD "") = name := hstem (name, target) hb
    simp only at hlook
    rwa [hkey] at hlook

/-- Claim C5 witness: the `MenuItem` component with a source hint under
the schemas root is placed at `r/schemas/resturant/MenuItem.yaml`, and
the index's `components.schemas` map binds `MenuItem` to the relative
link `./schemas/resturant/MenuItem.yaml` to that file. -/
theorem C5_schema_split_and_index_witness :
    ["r", "schemas", "resturant", "MenuItem.yaml"]
      = schemaTargetPath ["r"]
          ((([c5Class]).find? (fun c => compName c = "MenuItem")).bind SchemaClass.schemaSource)
          "MenuItem" ∧
    pyLookup (componentsIndexOf (["r"] ++ ["openapi.yaml"])
        (exportSchemasSplitMap ["r"] [c5Class]).1) "MenuItem"
      = some (Val.obj [("$ref",
          Val.str (rel_ref (["r"] ++ ["openapi.yaml"])
            ["r", "schemas", "resturant", "MenuItem.yaml"]))]) ∧
    rel_ref (["r"] ++ ["openapi.yaml"]) ["r", "schemas", "resturant", "MenuItem.yaml"]
      = "./schemas/resturant/MenuItem.yaml" := by
  have h := C5_schema_split_and_index ["r"] [c5Class] [] []
    (by decide) (by decide) "MenuItem" ["r", "schemas", "resturant", "MenuItem.yaml"]
    (by decide)
  exact ⟨h.1, h.2.2.2.2.1, by decide⟩

end SSPA
